import Mathlib

set_option linter.unusedVariables false

/-!
Verification of the calculation core of a portfolio-tracker application.

The program consists of two pure functions in `utils.py`
(`process_portfolio_data` and `calculate_shares_to_buy`) plus the
merge-on-repeat-purchase rule applied in the `/portfolio` POST handler of
`app.py`.  Python numbers (ints and floats) are embedded as `ℤ` and `ℚ`;
Python's `round(x, 2)` (round-half-to-even to two decimal places) is
embedded as `round2`.
-/

/-- Round a rational to the nearest integer, ties to the even integer.
This models Python 3's built-in `round` on the mathematical value. -/
def rndHalfEven (q : ℚ) : ℤ :=
  if Int.fract q = 1/2 then
    (if ⌊q⌋ % 2 = 0 then ⌊q⌋ else ⌊q⌋ + 1)
  else round q

/-- Python's `round(x, 2)`: round to two decimal places, ties to even. -/
def round2 (q : ℚ) : ℚ := (rndHalfEven (q * 100) : ℚ) / 100

/-- Embedding of the `Stock` database model of `app.py` (the fields read by
`utils.process_portfolio_data`): `id` and `quantity` are Integer columns,
`buy_price` and `current_price` are Float columns. -/
structure Stock where
  id : ℤ
  stock_name : String
  quantity : ℤ
  buy_price : ℚ
  current_price : ℚ
deriving DecidableEq

/-- The per-stock dictionary built inside the loop of
`utils.process_portfolio_data` (`stock_data` in the source). -/
structure StockData where
  id : ℤ
  stock_name : String
  quantity : ℤ
  buy_price : ℚ
  current_price : ℚ
  profit_loss : ℚ
deriving DecidableEq

/-- The `summary` dictionary returned by `utils.process_portfolio_data`. -/
structure Summary where
  total_investment : ℚ
  total_current_value : ℚ
  total_profit_loss : ℚ
deriving DecidableEq

/-- One iteration of the `for stock in all_stocks` loop of
`utils.process_portfolio_data`: the accumulator carries the `portfolio`
list and the running sums `total_investment` and `total_current_value`. -/
def processStep (acc : List StockData × ℚ × ℚ) (stock : Stock) :
    List StockData × ℚ × ℚ :=
  let profit_loss := (stock.current_price - stock.buy_price) * (stock.quantity : ℚ)
  let stock_data : StockData :=
    { id := stock.id
      stock_name := stock.stock_name
      quantity := stock.quantity
      buy_price := round2 stock.buy_price
      current_price := round2 stock.current_price
      profit_loss := round2 profit_loss }
  (acc.1 ++ [stock_data],
   acc.2.1 + (stock.quantity : ℚ) * stock.buy_price,
   acc.2.2 + (stock.quantity : ℚ) * stock.current_price)

/-- Embedding of `utils.process_portfolio_data`: folds the loop body over
the input list starting from an empty portfolio and zero totals, then
builds the summary dictionary. -/
def process_portfolio_data (all_stocks : List Stock) :
    List StockData × Summary :=
  let r := all_stocks.foldl processStep ([], 0, 0)
  let total_profit_loss := r.2.2 - r.2.1
  (r.1,
   { total_investment := round2 r.2.1
     total_current_value := round2 r.2.2
     total_profit_loss := round2 total_profit_loss })

/-- Embedding of `utils.calculate_shares_to_buy`.  The two guard clauses
return `None` (here `none`); otherwise the quotient is computed.  The
`try/except` around the arithmetic cannot fire in exact arithmetic (the
reachable denominator is nonzero), so the success branch returns the
quotient directly. -/
def calculate_shares_to_buy (q1 p1 p2 p_target : ℚ) : Option ℚ :=
  if p_target ≤ p2 then
    none
  else if p_target ≥ p1 then
    none
  else
    let numerator := q1 * (p1 - p_target)
    let denominator := p_target - p2
    let q2 := numerator / denominator
    some q2

/-- Embedding of the `UPDATE EXISTING STOCK` branch of the `/portfolio`
POST handler in `app.py`, as a pure function from the existing record and
the submitted form fields to the updated record. -/
def update_existing_stock (existing_stock : Stock) (form_quantity : ℤ)
    (form_buy_price form_current_price : ℚ) : Stock :=
  let old_total_cost := (existing_stock.quantity : ℚ) * existing_stock.buy_price
  let new_purchase_cost := (form_quantity : ℚ) * form_buy_price
  let total_quantity := existing_stock.quantity + form_quantity
  let new_average_price := (old_total_cost + new_purchase_cost) / (total_quantity : ℚ)
  { existing_stock with
      quantity := total_quantity
      buy_price := new_average_price
      current_price := form_current_price }

/-- C1: for every input with q1 > 0, p1 > 0, p2 > 0 and
p2 < p_target < p1, `calculate_shares_to_buy` returns
q1*(p1 - p_target)/(p_target - p2). -/
theorem calculate_shares_to_buy_formula (q1 p1 p2 p_target : ℚ)
    (hq1 : 0 < q1) (hp1 : 0 < p1) (hp2 : 0 < p2)
    (hlo : p2 < p_target) (hhi : p_target < p1) :
    calculate_shares_to_buy q1 p1 p2 p_target =
      some (q1 * (p1 - p_target) / (p_target - p2)) := by
  simp [calculate_shares_to_buy, not_le.mpr hlo, not_le.mpr hhi]

/-- Witness for C1: the spec scenario q1=10, p1=100, p2=60, p_target=80
yields q2 = 10. -/
theorem calculate_shares_to_buy_formula_witness :
    0 < (10 : ℚ) ∧ 0 < (100 : ℚ) ∧ 0 < (60 : ℚ) ∧
      (60 : ℚ) < 80 ∧ (80 : ℚ) < 100 ∧
      calculate_shares_to_buy 10 100 60 80 =
        some (10 * (100 - 80) / (80 - 60)) :=
  ⟨by norm_num, by norm_num, by norm_num, by norm_num, by norm_num,
    calculate_shares_to_buy_formula 10 100 60 80 (by norm_num) (by norm_num)
      (by norm_num) (by norm_num) (by norm_num)⟩

/-- C2: for positive q1, p1, p2 the function returns the absent value
exactly when p_target ≤ p2 or p_target ≥ p1, and a numeric result in every
other case. -/
theorem calculate_shares_to_buy_none_iff (q1 p1 p2 p_target : ℚ)
    (hq1 : 0 < q1) (hp1 : 0 < p1) (hp2 : 0 < p2) :
    (calculate_shares_to_buy q1 p1 p2 p_target = none ↔
        p_target ≤ p2 ∨ p_target ≥ p1) ∧
      (¬(p_target ≤ p2 ∨ p_target ≥ p1) →
        ∃ q2, calculate_shares_to_buy q1 p1 p2 p_target = some q2) := by
  constructor
  · unfold calculate_shares_to_buy
    split
    · simp_all
    · split
      · simp_all
      · simp_all
  · intro h
    push_neg at h
    exact ⟨_, calculate_shares_to_buy_formula q1 p1 p2 p_target hq1 hp1 hp2
      h.1 h.2⟩

/-- Witness for C2: the spec scenario q1=5, p1=50, p2=50, p_target=40,
where p_target ≤ p2 forces the no-solution result. -/
theorem calculate_shares_to_buy_none_iff_witness :
    0 < (5 : ℚ) ∧ 0 < (50 : ℚ) ∧ 0 < (50 : ℚ) ∧
      ((calculate_shares_to_buy 5 50 50 40 = none ↔
          (40 : ℚ) ≤ 50 ∨ (40 : ℚ) ≥ 50) ∧
        (¬((40 : ℚ) ≤ 50 ∨ (40 : ℚ) ≥ 50) →
          ∃ q2, calculate_shares_to_buy 5 50 50 40 = some q2)) :=
  ⟨by norm_num, by norm_num, by norm_num,
    calculate_shares_to_buy_none_iff 5 50 50 40 (by norm_num) (by norm_num)
      (by norm_num)⟩

/-- C4: whenever `calculate_shares_to_buy` reaches the division (i.e.
returns a value), both guard checks have passed, so the denominator
p_target - p2 is strictly positive and in particular nonzero. -/
theorem calculate_shares_to_buy_denominator_pos (q1 p1 p2 p_target q2 : ℚ)
    (h : calculate_shares_to_buy q1 p1 p2 p_target = some q2) :
    p2 < p_target ∧ p_target < p1 ∧ 0 < p_target - p2 ∧ p_target - p2 ≠ 0 := by
  unfold calculate_shares_to_buy at h
  split at h
  · exact absurd h (by simp)
  · split at h
    · exact absurd h (by simp)
    · rename_i h1 h2
      push_neg at h1 h2
      exact ⟨h1, h2, by linarith, by intro hc; linarith [sub_eq_zero.mp hc]⟩

/-- Witness for C4: applied to the concrete successful call
(10, 100, 60, 80) returning 10. -/
theorem calculate_shares_to_buy_denominator_pos_witness :
    (60 : ℚ) < 80 ∧ (80 : ℚ) < 100 ∧ 0 < (80 : ℚ) - 60 ∧ (80 : ℚ) - 60 ≠ 0 :=
  calculate_shares_to_buy_denominator_pos 10 100 60 80 10
    (by norm_num [calculate_shares_to_buy])

/-- C3: for valid averaging-down inputs, the returned q2 satisfies the
break-even identity (q1*p1 + q2*p2)/(q1 + q2) = p_target: buying q2 more
shares at p2 moves the average cost from p1 exactly to p_target. -/
theorem calculate_shares_to_buy_break_even (q1 p1 p2 p_target q2 : ℚ)
    (hq1 : 0 < q1) (hp1 : 0 < p1) (hp2 : 0 < p2)
    (hlo : p2 < p_target) (hhi : p_target < p1)
    (hres : calculate_shares_to_buy q1 p1 p2 p_target = some q2) :
    (q1 * p1 + q2 * p2) / (q1 + q2) = p_target := by
  have hform := calculate_shares_to_buy_formula q1 p1 p2 p_target hq1 hp1 hp2 hlo hhi
  rw [hform] at hres
  have hq2 : q2 = q1 * (p1 - p_target) / (p_target - p2) :=
    (Option.some.inj hres).symm
  have hden : (0 : ℚ) < p_target - p2 := by linarith
  have hq2pos : 0 < q2 := by
    rw [hq2]
    exact div_pos (mul_pos hq1 (by linarith)) hden
  have hsum : q1 + q2 ≠ 0 := by positivity
  rw [div_eq_iff hsum, hq2]
  field_simp
  ring

/-- Witness for C3: at q1=10, p1=100, p2=60, p_target=80 with q2=10,
(10*100 + 10*60)/(10 + 10) = 80. -/
theorem calculate_shares_to_buy_break_even_witness :
    ((10 : ℚ) * 100 + 10 * 60) / (10 + 10) = 80 :=
  calculate_shares_to_buy_break_even 10 100 60 80 10 (by norm_num)
    (by norm_num) (by norm_num) (by norm_num) (by norm_num)
    (by norm_num [calculate_shares_to_buy])

/-- C9: the function checks no positivity preconditions: whenever
p2 < p_target < p1 it returns the numeric quotient even for q1 ≤ 0 or
p2 ≤ 0, and for q1 ≤ 0 that quotient is zero or negative. -/
theorem calculate_shares_to_buy_no_positivity_check (q1 p1 p2 p_target : ℚ)
    (hlo : p2 < p_target) (hhi : p_target < p1) :
    calculate_shares_to_buy q1 p1 p2 p_target =
        some (q1 * (p1 - p_target) / (p_target - p2)) ∧
      (q1 ≤ 0 → q1 * (p1 - p_target) / (p_target - p2) ≤ 0) := by
  constructor
  · simp [calculate_shares_to_buy, not_le.mpr hlo, not_le.mpr hhi]
  · intro hq1
    apply div_nonpos_of_nonpos_of_nonneg
    · exact mul_nonpos_of_nonpos_of_nonneg hq1 (by linarith)
    · linarith

/-- Witness for C9: with q1 = -1 and p2 = -5 (both violating the spec's
positivity preconditions) the call (-1, 100, -5, 80) still returns the
numeric value -20/85, which is nonpositive. -/
theorem calculate_shares_to_buy_no_positivity_check_witness :
    (-5 : ℚ) < 80 ∧ (80 : ℚ) < 100 ∧
      (calculate_shares_to_buy (-1) 100 (-5) 80 =
          some ((-1) * (100 - 80) / (80 - (-5))) ∧
        ((-1 : ℚ) ≤ 0 → (-1 : ℚ) * (100 - 80) / (80 - (-5)) ≤ 0)) :=
  ⟨by norm_num, by norm_num,
    calculate_shares_to_buy_no_positivity_check (-1) 100 (-5) 80
      (by norm_num) (by norm_num)⟩

/-- C10: for q1 > 0 and 0 < p2 < p_target < p1 the returned q2 is strictly
positive, so its ceiling (a whole-share count rounded up) is at least 1. -/
theorem calculate_shares_to_buy_pos (q1 p1 p2 p_target : ℚ)
    (hq1 : 0 < q1) (hp2 : 0 < p2) (hlo : p2 < p_target) (hhi : p_target < p1) :
    ∃ q2, calculate_shares_to_buy q1 p1 p2 p_target = some q2 ∧
      0 < q2 ∧ 1 ≤ ⌈q2⌉ := by
  refine ⟨q1 * (p1 - p_target) / (p_target - p2), ?_, ?_, ?_⟩
  · simp [calculate_shares_to_buy, not_le.mpr hlo, not_le.mpr hhi]
  · exact div_pos (mul_pos hq1 (by linarith)) (by linarith)
  · have hpos : (0 : ℚ) < q1 * (p1 - p_target) / (p_target - p2) :=
      div_pos (mul_pos hq1 (by linarith)) (by linarith)
    have := Int.ceil_pos.mpr hpos
    omega

/-- Witness for C10: at q1=10, p1=100, p2=60, p_target=80 a positive q2
with ceiling at least 1 exists. -/
theorem calculate_shares_to_buy_pos_witness :
    ∃ q2, calculate_shares_to_buy 10 100 60 80 = some q2 ∧
      0 < q2 ∧ 1 ≤ ⌈q2⌉ :=
  calculate_shares_to_buy_pos 10 100 60 80 (by norm_num) (by norm_num)
    (by norm_num) (by norm_num)

/-- C8: recording a purchase of an already-held stock adds the quantities,
replaces the average buy price by the cost-weighted average, and overwrites
current_price with the form's price (no averaging). -/
theorem update_existing_stock_rule (existing_stock : Stock)
    (form_quantity : ℤ) (form_buy_price form_current_price : ℚ) :
    (update_existing_stock existing_stock form_quantity form_buy_price
        form_current_price).quantity =
        existing_stock.quantity + form_quantity ∧
      (update_existing_stock existing_stock form_quantity form_buy_price
          form_current_price).buy_price =
        ((existing_stock.quantity : ℚ) * existing_stock.buy_price +
            (form_quantity : ℚ) * form_buy_price) /
          ((existing_stock.quantity : ℚ) + (form_quantity : ℚ)) ∧
      (update_existing_stock existing_stock form_quantity form_buy_price
          form_current_price).current_price = form_current_price := by
  refine ⟨rfl, ?_, rfl⟩
  simp only [update_existing_stock]
  push_cast
  ring_nf

/-- The per-stock output record of `utils.process_portfolio_data`, as a
function of one stock (used to characterise the loop). -/
def mkStockData (stock : Stock) : StockData :=
  { id := stock.id
    stock_name := stock.stock_name
    quantity := stock.quantity
    buy_price := round2 stock.buy_price
    current_price := round2 stock.current_price
    profit_loss :=
      round2 ((stock.current_price - stock.buy_price) * (stock.quantity : ℚ)) }

/-- Σ quantity·buy_price over a list of stocks (the raw running total
`total_investment` accumulates). -/
def invSum (l : List Stock) : ℚ :=
  (l.map fun s => (s.quantity : ℚ) * s.buy_price).sum

/-- Σ quantity·current_price over a list of stocks (the raw running total
`total_current_value` accumulates). -/
def curSum (l : List Stock) : ℚ :=
  (l.map fun s => (s.quantity : ℚ) * s.current_price).sum

theorem foldl_processStep (l : List Stock) (acc : List StockData × ℚ × ℚ) :
    l.foldl processStep acc =
      (acc.1 ++ l.map mkStockData, acc.2.1 + invSum l, acc.2.2 + curSum l) := by
  induction l generalizing acc with
  | nil => simp [invSum, curSum]
  | cons s t ih =>
    rw [List.foldl_cons, ih]
    simp [processStep, mkStockData, invSum, curSum, add_assoc]

theorem process_portfolio_data_fst (l : List Stock) :
    (process_portfolio_data l).1 = l.map mkStockData := by
  simp [process_portfolio_data, foldl_processStep]

theorem process_total_investment (l : List Stock) :
    (process_portfolio_data l).2.total_investment = round2 (invSum l) := by
  simp [process_portfolio_data, foldl_processStep]

theorem process_total_current_value (l : List Stock) :
    (process_portfolio_data l).2.total_current_value = round2 (curSum l) := by
  simp [process_portfolio_data, foldl_processStep]

theorem process_total_profit_loss (l : List Stock) :
    (process_portfolio_data l).2.total_profit_loss =
      round2 (curSum l - invSum l) := by
  simp [process_portfolio_data, foldl_processStep]

/-- C5: each output record's profit_loss is
(current_price - buy_price) * quantity rounded to 2 decimals; stated
pointwise over the input and output lists (which in particular have equal
length). -/
theorem process_portfolio_data_profit_loss (stocks : List Stock) :
    List.Forall₂
      (fun s d => d.profit_loss =
        round2 ((s.current_price - s.buy_price) * (s.quantity : ℚ)))
      stocks (process_portfolio_data stocks).1 := by
  rw [process_portfolio_data_fst]
  induction stocks with
  | nil => exact List.Forall₂.nil
  | cons s t ih => exact List.Forall₂.cons rfl ih

/-- C6: the summary's total_investment is round2 of Σ quantity·buy_price,
total_current_value is round2 of Σ quantity·current_price, and
total_profit_loss is round2 of their (unrounded) difference. -/
theorem process_portfolio_data_totals (stocks : List Stock) :
    (process_portfolio_data stocks).2.total_investment =
        round2 ((stocks.map fun s => (s.quantity : ℚ) * s.buy_price).sum) ∧
      (process_portfolio_data stocks).2.total_current_value =
        round2 ((stocks.map fun s => (s.quantity : ℚ) * s.current_price).sum) ∧
      (process_portfolio_data stocks).2.total_profit_loss =
        round2 ((stocks.map fun s => (s.quantity : ℚ) * s.current_price).sum -
          (stocks.map fun s => (s.quantity : ℚ) * s.buy_price).sum) :=
  ⟨process_total_investment stocks, process_total_current_value stocks,
    process_total_profit_loss stocks⟩

theorem abs_rndHalfEven_sub (q : ℚ) : |(rndHalfEven q : ℚ) - q| ≤ 1/2 := by
  unfold rndHalfEven
  split
  · rename_i hfr
    rw [Int.fract] at hfr
    split
    · rw [abs_le]
      constructor <;> linarith
    · rw [abs_le]
      push_cast
      constructor <;> linarith
  · rw [abs_sub_comm]
    exact abs_sub_round q

theorem abs_round2_sub (q : ℚ) : |round2 q - q| ≤ 1/200 := by
  have h := abs_rndHalfEven_sub (q * 100)
  have heq : round2 q - q = ((rndHalfEven (q * 100) : ℚ) - q * 100) / 100 := by
    rw [round2]; ring
  rw [heq, abs_div]
  have h100 : |(100 : ℚ)| = 100 := by norm_num
  rw [h100, div_le_iff₀ (by norm_num : (0 : ℚ) < 100)]
  linarith

theorem round2_sub_round2_close (A B : ℚ) :
    |round2 (B - A) - (round2 B - round2 A)| ≤ 1/100 := by
  set a := rndHalfEven (A * 100) with ha_def
  set b := rndHalfEven (B * 100) with hb_def
  set c := rndHalfEven ((B - A) * 100) with hc_def
  have ha := abs_le.mp (abs_rndHalfEven_sub (A * 100))
  have hb := abs_le.mp (abs_rndHalfEven_sub (B * 100))
  have hc := abs_le.mp (abs_rndHalfEven_sub ((B - A) * 100))
  have heq : ((c - b + a : ℤ) : ℚ) =
      ((c : ℚ) - (B - A) * 100) - ((b : ℚ) - B * 100) + ((a : ℚ) - A * 100) := by
    push_cast
    ring
  have habs : |((c - b + a : ℤ) : ℚ)| ≤ 3/2 := by
    rw [heq, abs_le]
    constructor <;> linarith
  have hint : |c - b + a| ≤ 1 := by
    have h1 : ((|c - b + a| : ℤ) : ℚ) ≤ 3/2 := by rwa [Int.cast_abs]
    have h2 : |c - b + a| < 2 := by
      by_contra hcon
      push_neg at hcon
      have hq : (2 : ℚ) ≤ ((|c - b + a| : ℤ) : ℚ) := by exact_mod_cast hcon
      linarith
    omega
  have hgoal : round2 (B - A) - (round2 B - round2 A) =
      ((c - b + a : ℤ) : ℚ) / 100 := by
    simp only [round2, ← ha_def, ← hb_def, ← hc_def]
    push_cast
    ring
  rw [hgoal, abs_div]
  have h100 : |(100 : ℚ)| = 100 := by norm_num
  rw [h100, div_le_iff₀ (by norm_num : (0 : ℚ) < 100)]
  have : |((c - b + a : ℤ) : ℚ)| ≤ 1 := by
    rw [← Int.cast_abs]
    exact_mod_cast hint
  linarith

/-- C7: for every non-empty input, the three rounded summary fields
satisfy the profit identity to within 0.01: the absolute discrepancy
between total_profit_loss and total_current_value - total_investment is
at most 1/100. -/
theorem process_portfolio_data_totals_consistent (stocks : List Stock)
    (hne : stocks ≠ []) :
    |(process_portfolio_data stocks).2.total_profit_loss -
        ((process_portfolio_data stocks).2.total_current_value -
          (process_portfolio_data stocks).2.total_investment)| ≤ 1/100 := by
  rw [process_total_profit_loss, process_total_current_value,
    process_total_investment]
  exact round2_sub_round2_close (invSum stocks) (curSum stocks)

/-- Witness for C7: the spec scenario list with one position
(quantity 10, buy_price 100, current_price 120). -/
theorem process_portfolio_data_totals_consistent_witness :
    |(process_portfolio_data [⟨1, "ABC", 10, 100, 120⟩]).2.total_profit_loss -
        ((process_portfolio_data
            [⟨1, "ABC", 10, 100, 120⟩]).2.total_current_value -
          (process_portfolio_data
            [⟨1, "ABC", 10, 100, 120⟩]).2.total_investment)| ≤ 1/100 :=
  process_portfolio_data_totals_consistent [⟨1, "ABC", 10, 100, 120⟩]
    (by simp)
